import Mathlib

/-!
Control-plane model of the Mixxx effect chain slot and vinyl-control manager.

Shallow embedding of
* `src/effects/effectchainslot.cpp` (class `EffectChainSlot`) and
* `src/vinylcontrol/vinylcontrolmanager.cpp` (class `VinylControlManager`).

Member functions become pure functions on a record of the object's members.
Requests written to the effects messenger are appended to a log kept in the
record, oldest first, so that "the messages sent by a call" is the suffix the
call appends.  The deliveries of a drain of the Report Channel and the steps
of the teardown are answered as lists, in the order in which the code makes
them.  A C++ `double` is a rational number, an `int` is an integer.
-/

namespace Mixxx

/-! ## Shared value types -/

/-- A C++ `double`, as a rational number. -/
abbrev Double := ℚ

/-- The conversion `static_cast<int>(d)`: truncation toward zero.  The C++
conversion is defined only when the truncated value fits a 32-bit `int`, that
is for `-2147483649 < d < 2147483648`; outside that range the behaviour of the
source is undefined and this function says nothing about it, so a theorem
whose conclusion depends on the converted value of an arbitrary `double`
carries that range as a hypothesis. -/
def staticCastInt (d : Double) : Int := d.num.tdiv d.den

/-- The key `ConfigKey(group, item)` of a control or of a settings entry. -/
structure ConfigKey where
  group : String
  item : String
  deriving DecidableEq

/-- The identity of an input channel: its handle and its group name. -/
structure ChannelHandleAndGroup where
  handle : Nat
  name : String
  deriving DecidableEq

/-- The enum class `EffectChainMixMode`, by its underlying `int`.  The
enumerators are declared in a header outside the sources at hand;
`static_cast` between the enum and `int` is the identity on this type. -/
abbrev EffectChainMixMode := Int

/-! ## Effect slots and presets (collaborators of the chain slot) -/

/-- One per-slot entry of a chain preset.  `isEmpty` is what
`EffectPreset::isEmpty()` answers. -/
structure EffectPreset where
  id : String
  isEmpty : Bool
  deriving DecidableEq

/-- A chain preset: name, mix mode, super-knob value and per-slot entries. -/
structure EffectChainPreset where
  name : String
  mixMode : EffectChainMixMode
  superKnob : Double
  effectPresets : List EffectPreset
  deriving DecidableEq

/-- Modelled from the spec: class `EffectSlot` is implemented outside the
sources at hand.  An effect slot is one position of the chain that holds zero
or one effect; a loaded effect is recorded by the preset entry it was loaded
from. -/
structure EffectSlot where
  m_group : String
  m_iEffectNumber : Nat
  m_pEffect : Option EffectPreset
  deriving DecidableEq

/-- Modelled from the spec: `EffectSlot::slotClear(v)` unloads the effect when
the control value reads as pressed. -/
def EffectSlot.slotClear (slot : EffectSlot) (v : Double) : EffectSlot :=
  if v > 0 then { slot with m_pEffect := none } else slot

/-- Modelled from the spec: `EffectSlot::loadEffectFromPreset(p)` loads the
effect described by `p`; the null preset clears the slot. -/
def EffectSlot.loadEffectFromPreset (slot : EffectSlot)
    (pEffectPreset : Option EffectPreset) : EffectSlot :=
  { slot with m_pEffect := pEffectPreset }

/-- Modelled from the spec: the per-effect processing states that
`EffectSlot::fillEffectStatesMap` allocates for one slot.  The entry records
the slot that filled it. -/
structure EffectStatesMap where
  filledBy : EffectSlot
  deriving DecidableEq

/-- Modelled from the spec: the result of `EffectSlot::fillEffectStatesMap`. -/
def EffectSlot.fillEffectStatesMap (slot : EffectSlot) : EffectStatesMap :=
  ⟨slot⟩

/-- The table `EffectStatesMapArray`, indexed by effect number.  Its type is
declared outside the sources at hand; a cell is `none` until a slot fills
it. -/
abbrev EffectStatesMapArray := Nat → Option EffectStatesMap

/-- A freshly allocated table: `new EffectStatesMapArray`. -/
def EffectStatesMapArray.new : EffectStatesMapArray := fun _ => none

/-- The write `slot->fillEffectStatesMap(&(*pArray)[i])`. -/
def EffectStatesMapArray.fill (arr : EffectStatesMapArray) (i : Nat)
    (slot : EffectSlot) : EffectStatesMapArray :=
  fun j => if j = i then some slot.fillEffectStatesMap else arr j

/-! ## Requests sent to the engine -/

/-- The pointer `m_pEngineEffectChain`: null or the engine-side chain created
for a group. -/
abbrev EngineEffectChainPtr := Option String

/-- The discriminated request `EffectsRequest`, one constructor per request
type used by the chain slot.  The field types are declared outside the sources
at hand; each field holds the value the code assigns to it.  The
signal-processing stage of the add and remove requests, a constant of the
chain, is left out. -/
inductive EffectsRequest where
  | ADD_EFFECT_CHAIN (pChain : EngineEffectChainPtr)
  | REMOVE_EFFECT_CHAIN (pChain : EngineEffectChainPtr)
  | SET_EFFECT_CHAIN_PARAMETERS (pTargetChain : EngineEffectChainPtr)
      (enabled : Double) (mix_mode : EffectChainMixMode) (mix : Double)
  | ENABLE_EFFECT_CHAIN_FOR_INPUT_CHANNEL (pTargetChain : EngineEffectChainPtr)
      (pChannelHandle : Nat) (pEffectStatesMapArray : EffectStatesMapArray)
  | DISABLE_EFFECT_CHAIN_FOR_INPUT_CHANNEL (pTargetChain : EngineEffectChainPtr)
      (pChannelHandle : Nat)

/-- Whether a request is an enable-for-input-channel request. -/
def EffectsRequest.isEnable : EffectsRequest → Bool
  | .ENABLE_EFFECT_CHAIN_FOR_INPUT_CHANNEL _ _ _ => true
  | _ => false

/-! ## Control objects -/

/-- Modelled from the spec: a control object (`ControlObject`,
`ControlPushButton`, `ControlPotmeter`) holds a value and a default value;
`set` stores the value, `get` reads it and `setDefaultValue` stores the
default. -/
structure ControlObject where
  value : Double
  defaultValue : Double
  deriving DecidableEq

/-- The reading `ControlObject::toBool()`: the value is positive. -/
def ControlObject.toBool (c : ControlObject) : Bool := decide (c.value > 0)

/-- Modelled from the spec: the constructor
`ControlPushButton(key, persist, defaultValue)` starts the button at its
default value. -/
def ControlPushButton.make (defaultValue : Double) : ControlObject :=
  ⟨defaultValue, defaultValue⟩

/-! ## The preset store -/

/-- Modelled from the spec: the Preset Store (`EffectChainPresetManager`) is
an ordered catalog of named chain presets. -/
abbrev EffectChainPresetManager := List EffectChainPreset

/-- Modelled from the spec: `EffectChainPresetManager::presetIndex(name)` is
the position of the preset of that name in the catalog, and `-1` when there is
none. -/
def EffectChainPresetManager.presetIndex (m : EffectChainPresetManager)
    (name : String) : Int :=
  match m.findIdx? (fun p => p.name == name) with
  | some i => (i : Int)
  | none => -1

/-! ## The chain slot -/

/-- The members of `EffectChainSlot` that the modelled functions touch. -/
structure EffectChainSlot where
  m_presetName : String
  m_group : String
  m_pEngineEffectChain : EngineEffectChainPtr
  m_pChainPresetManager : EffectChainPresetManager
  m_effectSlots : List EffectSlot
  m_enabledInputChannels : Finset ChannelHandleAndGroup
  m_channelEnableButtons : List (ChannelHandleAndGroup × ControlObject)
  m_pControlNumEffectSlots : ControlObject
  m_pControlChainEnabled : ControlObject
  m_pControlChainMix : ControlObject
  m_pControlChainSuperParameter : ControlObject
  m_pControlChainMixMode : ControlObject
  m_pControlLoadedPreset : ControlObject
  m_pMessenger : List EffectsRequest

namespace EffectChainSlot

/-- The call `m_pMessenger->writeRequest(pRequest)`. -/
def writeRequest (s : EffectChainSlot) (pRequest : EffectsRequest) : EffectChainSlot :=
  { s with m_pMessenger := s.m_pMessenger ++ [pRequest] }

/-- `EffectChainSlot::mixMode`. -/
def mixMode (s : EffectChainSlot) : EffectChainMixMode :=
  staticCastInt s.m_pControlChainMixMode.value

/-- `EffectChainSlot::sendParameterUpdate`. -/
def sendParameterUpdate (s : EffectChainSlot) : EffectChainSlot :=
  s.writeRequest
    (.SET_EFFECT_CHAIN_PARAMETERS s.m_pEngineEffectChain
      s.m_pControlChainEnabled.value s.mixMode s.m_pControlChainMix.value)

/-- `EffectChainSlot::setMixMode`. -/
def setMixMode (s : EffectChainSlot) (mixMode : EffectChainMixMode) : EffectChainSlot :=
  sendParameterUpdate
    { s with m_pControlChainMixMode :=
        { s.m_pControlChainMixMode with value := ((mixMode : Int) : Double) } }

/-- The loop of `enableForInputChannel` that fills cell `i` of the table from
`m_effectSlots[i]`, for `i` from `0` below `m_effectSlots.size()`. -/
def fillEffectStatesMaps (slots : List EffectSlot) : EffectStatesMapArray :=
  (List.range slots.length).foldl
    (fun arr i =>
      match slots[i]? with
      | some pEffectSlot => arr.fill i pEffectSlot
      | none => arr)
    EffectStatesMapArray.new

/-- `EffectChainSlot::enableForInputChannel`. -/
def enableForInputChannel (s : EffectChainSlot)
    (handleGroup : ChannelHandleAndGroup) : EffectChainSlot :=
  if handleGroup ∈ s.m_enabledInputChannels then s
  else
    let pEffectStatesMapArray := fillEffectStatesMaps s.m_effectSlots
    let request := EffectsRequest.ENABLE_EFFECT_CHAIN_FOR_INPUT_CHANNEL
      s.m_pEngineEffectChain handleGroup.handle pEffectStatesMapArray
    let s1 := s.writeRequest request
    { s1 with m_enabledInputChannels := insert handleGroup s1.m_enabledInputChannels }

/-- `EffectChainSlot::disableForInputChannel`.  `QSet::remove` removes the
channel and answers whether it was there. -/
def disableForInputChannel (s : EffectChainSlot)
    (handleGroup : ChannelHandleAndGroup) : EffectChainSlot :=
  let removed := decide (handleGroup ∈ s.m_enabledInputChannels)
  let s1 := { s with m_enabledInputChannels := s.m_enabledInputChannels.erase handleGroup }
  if !removed then s1
  else
    s1.writeRequest
      (.DISABLE_EFFECT_CHAIN_FOR_INPUT_CHANNEL s1.m_pEngineEffectChain handleGroup.handle)

/-- `EffectChainSlot::addToEngine`: creates the engine-side chain, announces
it and sends the first parameter update. -/
def addToEngine (s : EffectChainSlot) : EffectChainSlot :=
  let s1 := { s with m_pEngineEffectChain := some s.m_group }
  let s2 := s1.writeRequest (.ADD_EFFECT_CHAIN s1.m_pEngineEffectChain)
  s2.sendParameterUpdate

/-- The state left by the constructor `EffectChainSlot::EffectChainSlot`: no
preset name, no effect slot, no enabled channel, no channel button, the chain
enabled, the mix control set to the number of `DrySlashWet`, and the chain
announced to the engine.  `DrySlashWet` is an enumerator declared outside the
sources at hand. -/
def constructed (group : String) (pChainPresetManager : EffectChainPresetManager)
    (DrySlashWet : EffectChainMixMode) : EffectChainSlot :=
  addToEngine
    { m_presetName := ""
      m_group := group
      m_pEngineEffectChain := none
      m_pChainPresetManager := pChainPresetManager
      m_effectSlots := []
      m_enabledInputChannels := ∅
      m_channelEnableButtons := []
      m_pControlNumEffectSlots := ⟨0, 0⟩
      m_pControlChainEnabled := ⟨1, 1⟩
      m_pControlChainMix := ⟨((DrySlashWet : Int) : Double), 1⟩
      m_pControlChainSuperParameter := ⟨0, 0⟩
      m_pControlChainMixMode := ⟨0, 0⟩
      m_pControlLoadedPreset := ⟨0, 0⟩
      m_pMessenger := [] }

/-- `EffectChainSlot::addEffectSlot`: appends a new, empty effect slot and
publishes the new slot count. -/
def addEffectSlot (s : EffectChainSlot) (group : String) : EffectChainSlot :=
  let pEffectSlot : EffectSlot := ⟨group, s.m_effectSlots.length, none⟩
  let numEffectSlots : Int := staticCastInt (s.m_pControlNumEffectSlots.value + 1)
  { s with
    m_effectSlots := s.m_effectSlots ++ [pEffectSlot]
    m_pControlNumEffectSlots :=
      { s.m_pControlNumEffectSlots with value := ((numEffectSlots : Int) : Double) } }

/-- A fault of the container layer: `QList::at` or `QList::operator[]` called
with an index that is not below the size of the list. -/
inductive Fault where
  | indexOutOfRange
  deriving DecidableEq

/-- `EffectChainSlot::getEffectSlot`.  The answer `none` is the empty handle
`EffectSlotPointer()` of the violation branch. -/
def getEffectSlot (s : EffectChainSlot) (slotNumber : Nat) :
    Except Fault (Option EffectSlot) :=
  if ¬ (slotNumber ≤ s.m_effectSlots.length) then .ok none
  else
    match s.m_effectSlots[slotNumber]? with
    | some pEffectSlot => .ok (some pEffectSlot)
    | none => .error .indexOutOfRange

/-- `EffectChainSlot::slotControlClear`. -/
def slotControlClear (s : EffectChainSlot) (v : Double) : EffectChainSlot :=
  { s with m_effectSlots := s.m_effectSlots.map (fun pEffectSlot => pEffectSlot.slotClear v) }

/-- `EffectChainSlot::setPresetName`. -/
def setPresetName (s : EffectChainSlot) (name : String) : EffectChainSlot :=
  { s with m_presetName := name }

/-- `EffectChainSlot::presetIndex`. -/
def presetIndex (s : EffectChainSlot) : Int :=
  s.m_pChainPresetManager.presetIndex s.m_presetName

/-- The loop of `loadChainPreset` over `pPreset->effectPresets()`, started at
`effectSlotIndex`.  The access `m_effectSlots.at(effectSlotIndex)` faults when
the index is not below the size of the slot table. -/
def loadEffectPresets : List EffectPreset → Nat → List EffectSlot →
    Except Fault (List EffectSlot)
  | [], _, slots => .ok slots
  | pEffectPreset :: rest, effectSlotIndex, slots =>
    match slots[effectSlotIndex]? with
    | none => .error .indexOutOfRange
    | some pEffectSlot =>
      if pEffectPreset.isEmpty then
        loadEffectPresets rest (effectSlotIndex + 1)
          (slots.set effectSlotIndex (pEffectSlot.loadEffectFromPreset none))
      else
        loadEffectPresets rest (effectSlotIndex + 1)
          (slots.set effectSlotIndex (pEffectSlot.loadEffectFromPreset (some pEffectPreset)))

/-- `EffectChainSlot::loadChainPreset`.  The null preset is `none`. -/
def loadChainPreset (s : EffectChainSlot) (pPreset : Option EffectChainPreset) :
    Except Fault EffectChainSlot :=
  match pPreset with
  | none => .ok s
  | some preset =>
    let s1 := s.slotControlClear 1
    match loadEffectPresets preset.effectPresets 0 s1.m_effectSlots with
    | .error e => .error e
    | .ok slots =>
      let s2 := { s1 with m_effectSlots := slots }
      let s3 := s2.setMixMode preset.mixMode
      let s4 := { s3 with m_pControlChainSuperParameter :=
        { s3.m_pControlChainSuperParameter with defaultValue := preset.superKnob } }
      let s5 := s4.setPresetName preset.name
      .ok { s5 with m_pControlLoadedPreset :=
        { s5.m_pControlLoadedPreset with value := ((s5.presetIndex : Int) : Double) } }

/-- `EffectChainSlot::registerInputChannel`. -/
def registerInputChannel (s : EffectChainSlot) (handleGroup : ChannelHandleAndGroup)
    (initialValue : Double) : EffectChainSlot :=
  if (s.m_channelEnableButtons.lookup handleGroup).isSome then s
  else
    let pEnableControl := ControlPushButton.make initialValue
    let s1 := { s with m_channelEnableButtons :=
      s.m_channelEnableButtons ++ [(handleGroup, pEnableControl)] }
    if pEnableControl.toBool then s1.enableForInputChannel handleGroup else s1

/-- `EffectChainSlot::slotChannelStatusChanged`. -/
def slotChannelStatusChanged (s : EffectChainSlot) (value : Double)
    (handleGroup : ChannelHandleAndGroup) : EffectChainSlot :=
  if value > 0 then s.enableForInputChannel handleGroup
  else s.disableForInputChannel handleGroup

/-! ### Runs of channel calls -/

/-- A call of one of the four functions that enable or disable the chain for
an input channel. -/
inductive Call where
  | registerInputChannel (handleGroup : ChannelHandleAndGroup) (initialValue : Double)
  | enableForInputChannel (handleGroup : ChannelHandleAndGroup)
  | disableForInputChannel (handleGroup : ChannelHandleAndGroup)
  | slotChannelStatusChanged (value : Double) (handleGroup : ChannelHandleAndGroup)

/-- The channel a call is made for. -/
def Call.handleGroup : Call → ChannelHandleAndGroup
  | .registerInputChannel handleGroup _ => handleGroup
  | .enableForInputChannel handleGroup => handleGroup
  | .disableForInputChannel handleGroup => handleGroup
  | .slotChannelStatusChanged _ handleGroup => handleGroup

/-- The effect of one call. -/
def applyCall (s : EffectChainSlot) : Call → EffectChainSlot
  | .registerInputChannel handleGroup initialValue =>
    s.registerInputChannel handleGroup initialValue
  | .enableForInputChannel handleGroup => s.enableForInputChannel handleGroup
  | .disableForInputChannel handleGroup => s.disableForInputChannel handleGroup
  | .slotChannelStatusChanged value handleGroup => s.slotChannelStatusChanged value handleGroup

/-- A run of calls, in order. -/
def runCalls (s : EffectChainSlot) (calls : List Call) : EffectChainSlot :=
  calls.foldl applyCall s

/-- Reads a request as a message for the channel handle `pChannelHandle`:
`true` for an enable request with that handle, `false` for a disable request
with that handle, nothing for any other request. -/
def channelMessage (pChannelHandle : Nat) : EffectsRequest → Option Bool
  | .ENABLE_EFFECT_CHAIN_FOR_INPUT_CHANNEL _ h _ => if h = pChannelHandle then some true else none
  | .DISABLE_EFFECT_CHAIN_FOR_INPUT_CHANNEL _ h => if h = pChannelHandle then some false else none
  | _ => none

/-- The enable (`true`) and disable (`false`) messages sent for a channel
handle, in send order. -/
def channelMessages (pChannelHandle : Nat) (sent : List EffectsRequest) : List Bool :=
  sent.filterMap (channelMessage pChannelHandle)

/-- Whether the messages strictly alternate, the first one being `first`. -/
def alternates : Bool → List Bool → Bool
  | _, [] => true
  | first, b :: rest => (b == first) && alternates (!first) rest

/-- The invariant of the messages of channel `c`: the enable and disable
messages sent for its handle strictly alternate, the first one an enable, and
`c` is in the EnabledChannelSet exactly when the last of them is an enable. -/
def ChannelInvariant (c : ChannelHandleAndGroup) (s : EffectChainSlot) : Prop :=
  alternates true (channelMessages c.handle s.m_pMessenger) = true ∧
  (c ∈ s.m_enabledInputChannels ↔
    (channelMessages c.handle s.m_pMessenger).getLast? = some true)

end EffectChainSlot

/-! ## The vinyl-control manager -/

/-- The constants of `vinylcontrol/defs_vinylcontrol.h`, a header outside the
sources at hand.  `kMaxNumberOfDecks` is a number of decks, hence a natural
number. -/
structure VinylControlDefs where
  kMaxNumberOfDecks : Nat
  VINYL_PREF_KEY : String
  MIXXX_VCMODE_RELATIVE : Double

/-- Modelled from the spec: `PlayerManager::groupForDeck(i)` names deck `i`
by the convention `[Channel<i+1>]`. -/
def groupForDeck (i : Int) : String :=
  "[Channel" ++ toString (i + 1) ++ "]"

/-- Modelled from the spec: a store of values addressed by key, used for the
durable settings (`UserSettings`) and for the registry of control objects. -/
abbrev KeyValueStore := List (ConfigKey × Double)

/-- The read `getValue(key, default)`. -/
def KeyValueStore.getValue (m : KeyValueStore) (key : ConfigKey) (dflt : Double) : Double :=
  (m.lookup key).getD dflt

/-- The write `set(key, value)`. -/
def KeyValueStore.set (m : KeyValueStore) (key : ConfigKey) (value : Double) : KeyValueStore :=
  (key, value) :: m.filter (fun e => e.1 ≠ key)

/-- Modelled from the spec: a signal-quality report, a fixed-size record of
per-channel measurement fields produced by the real-time producer.  The type
`VinylSignalQualityReport` is declared outside the sources at hand. -/
structure VinylSignalQualityReport where
  processor : Nat
  timecode_quality : Double
  deriving DecidableEq

/-- A registered report recipient, `VinylSignalQualityListener*`, by the
identity of the object pointed to. -/
abbrev VinylSignalQualityListener := Nat

/-- Modelled from the spec: a `QSet`, kept as the list of the inserted
elements.  Membership decides what the set holds; `insert` adds an element
that is not yet there, `remove` takes an element out, and an iteration visits
every element once. -/
abbrev QSet (α : Type) := List α

/-- The call `QSet::insert`. -/
def QSet.insert {α : Type} [DecidableEq α] (s : QSet α) (a : α) : QSet α :=
  if a ∈ s then s else s ++ [a]

/-- The call `QSet::remove`. -/
def QSet.remove {α : Type} [DecidableEq α] (s : QSet α) (a : α) : QSet α :=
  s.filter (fun b => b ≠ a)

/-- The call `QSet::empty`. -/
def QSet.empty {α : Type} (s : QSet α) : Bool := s.isEmpty

/-- The elements that a `foreach` over the set visits, in order, each once. -/
def QSet.iterate {α : Type} [DecidableEq α] (s : QSet α) : List α := s.dedup

/-- Modelled from the spec: the real-time producer `VinylControlProcessor`,
implemented outside the sources at hand, by what the manager uses of it: the
switch set by `setSignalQualityReporting` and the Report Channel answered by
`getSignalQualityFifo` (null, or the pending reports, oldest first). -/
structure VinylControlProcessor where
  m_bReportSignalQuality : Bool
  m_signalQualityFifo : Option (List VinylSignalQualityReport)
  deriving DecidableEq

/-- One call `pListener->onVinylSignalQualityUpdate(report)`. -/
structure Delivery where
  pListener : VinylSignalQualityListener
  report : VinylSignalQualityReport
  deriving DecidableEq

/-- The members of `VinylControlManager`, with the registry of control objects
that `ControlObject::set` writes.  An entry of `m_pVcEnabled` is the key of the
proxied control with the deck index its change handler was wired to. -/
structure VinylControlManager where
  m_pConfig : KeyValueStore
  controls : KeyValueStore
  m_pProcessor : VinylControlProcessor
  m_iTimerId : Int
  m_iNumConfiguredDecks : Int
  m_pVcEnabled : List (ConfigKey × Int)
  m_listeners : QSet VinylSignalQualityListener
  timersStarted : Nat
  deriving DecidableEq

namespace VinylControlManager

/-- The state left by the constructor: a new processor that does not report
yet and has an empty Report Channel, no timer, no deck configured, no
listener. -/
def constructed (pConfig controls : KeyValueStore) : VinylControlManager :=
  { m_pConfig := pConfig, controls := controls,
    m_pProcessor := { m_bReportSignalQuality := false, m_signalQualityFifo := some [] },
    m_iTimerId := -1, m_iNumConfiguredDecks := 0, m_pVcEnabled := [], m_listeners := [],
    timersStarted := 0 }

/-- The body of the loop of `slotNumDecksChanged` for deck index `i`. -/
def configureDeck (defs : VinylControlDefs) (s : VinylControlManager) (i : Int) :
    VinylControlManager :=
  let group := groupForDeck i
  let pEnabled : ConfigKey := ⟨group, "vinylcontrol_enabled"⟩
  let s1 := { s with m_pVcEnabled := s.m_pVcEnabled ++ [(pEnabled, i)] }
  let cueing := s1.m_pConfig.getValue
    ⟨defs.VINYL_PREF_KEY, "cueing_ch" ++ toString (i + 1)⟩ 0
  let s2 := { s1 with controls := s1.controls.set ⟨group, "vinylcontrol_cueing"⟩ cueing }
  let mode := s2.m_pConfig.getValue
    ⟨defs.VINYL_PREF_KEY, "mode_ch" ++ toString (i + 1)⟩ defs.MIXXX_VCMODE_RELATIVE
  { s2 with controls := s2.controls.set ⟨group, "vinylcontrol_mode"⟩ mode }

/-- The indexes `lo, lo + 1, ..., hi - 1` of a counting `for` loop. -/
def loopIndexes (lo hi : Int) : List Int :=
  (List.range (hi - lo).toNat).map (fun (k : Nat) => lo + (k : Int))

/-- `VinylControlManager::slotNumDecksChanged`. -/
def slotNumDecksChanged (defs : VinylControlDefs) (s : VinylControlManager)
    (dNumDecks : Double) : VinylControlManager :=
  let num_decks := staticCastInt dNumDecks
  let num_decks := if num_decks > defs.kMaxNumberOfDecks then (defs.kMaxNumberOfDecks : Int)
    else num_decks
  if num_decks ≤ s.m_iNumConfiguredDecks then s
  else
    let s1 := (loopIndexes s.m_iNumConfiguredDecks num_decks).foldl (configureDeck defs) s
    { s1 with m_iNumConfiguredDecks := num_decks }

/-- A run of `slotNumDecksChanged` calls, one per requested value, in order. -/
def runNumDecksChanges (defs : VinylControlDefs) (s : VinylControlManager)
    (calls : List Double) : VinylControlManager :=
  calls.foldl (slotNumDecksChanged defs) s

/-! ### Listeners and the periodic drain -/

/-- Modelled from the spec: `QObject::startTimer` starts a recurring timer and
answers its identifier, a positive number not handed out before. -/
def startTimer (s : VinylControlManager) : VinylControlManager × Int :=
  ({ s with timersStarted := s.timersStarted + 1 }, ((s.timersStarted + 1 : Nat) : Int))

/-- `VinylControlManager::addSignalQualityListener`. -/
def addSignalQualityListener (s : VinylControlManager)
    (pListener : VinylSignalQualityListener) : VinylControlManager :=
  let s1 := { s with m_listeners := s.m_listeners.insert pListener }
  let s2 := { s1 with m_pProcessor := { s1.m_pProcessor with m_bReportSignalQuality := true } }
  if s2.m_iTimerId = -1 then
    let (s3, id) := s2.startTimer
    { s3 with m_iTimerId := id }
  else s2

/-- `VinylControlManager::removeSignalQualityListener`. -/
def removeSignalQualityListener (s : VinylControlManager)
    (pListener : VinylSignalQualityListener) : VinylControlManager :=
  let s1 := { s with m_listeners := s.m_listeners.remove pListener }
  if s1.m_listeners.empty then
    let s2 := { s1 with m_pProcessor := { s1.m_pProcessor with m_bReportSignalQuality := false } }
    if s2.m_iTimerId ≠ -1 then { s2 with m_iTimerId := -1 } else s2
  else s1

/-- A call of the listener interface of the manager. -/
inductive ListenerCall where
  | add (pListener : VinylSignalQualityListener)
  | remove (pListener : VinylSignalQualityListener)
  deriving DecidableEq

/-- The effect of one listener call. -/
def applyListenerCall (s : VinylControlManager) : ListenerCall → VinylControlManager
  | .add pListener => s.addSignalQualityListener pListener
  | .remove pListener => s.removeSignalQualityListener pListener

/-- A run of listener calls, in order. -/
def runListenerCalls (s : VinylControlManager) (calls : List ListenerCall) :
    VinylControlManager :=
  calls.foldl applyListenerCall s

/-- The drain is armed exactly when there is a listener: the timer runs and
the producer reports. -/
def ArmedIffListening (s : VinylControlManager) : Prop :=
  (s.m_iTimerId ≠ -1 ↔ s.m_listeners ≠ []) ∧
  (s.m_pProcessor.m_bReportSignalQuality = true ↔ s.m_listeners ≠ [])

/-- The `foreach` of `updateSignalQualityListeners`: one report handed to
every listener. -/
def dispatchReport (listeners : QSet VinylSignalQualityListener)
    (report : VinylSignalQualityReport) : List Delivery :=
  listeners.iterate.map (fun pListener => ⟨pListener, report⟩)

/-- The `while` loop of `updateSignalQualityListeners`: `read(&report, 1)`
takes the oldest pending report off the channel while there is one.  The
answer is the channel left behind and the deliveries made, in order. -/
def drainLoop (listeners : QSet VinylSignalQualityListener) :
    List VinylSignalQualityReport → List Delivery →
    List VinylSignalQualityReport × List Delivery
  | [], log => ([], log)
  | report :: rest, log => drainLoop listeners rest (log ++ dispatchReport listeners report)

/-- `VinylControlManager::updateSignalQualityListeners`, with the deliveries
it makes. -/
def updateSignalQualityListeners (s : VinylControlManager) :
    VinylControlManager × List Delivery :=
  match s.m_pProcessor.m_signalQualityFifo with
  | none => (s, [])
  | some signalQualityFifo =>
    let (rest, log) := drainLoop s.m_listeners signalQualityFifo []
    ({ s with m_pProcessor := { s.m_pProcessor with m_signalQualityFifo := some rest } }, log)

/-- `VinylControlManager::timerEvent`. -/
def timerEvent (s : VinylControlManager) : VinylControlManager × List Delivery :=
  s.updateSignalQualityListeners

/-! ### Teardown -/

/-- Removes the literal `lit` from the front of `s`, if `s` starts with it. -/
def dropLiteral : List Char → List Char → Option (List Char)
  | [], s => some s
  | _ :: _, [] => none
  | l :: lit, c :: s => if l = c then dropLiteral lit s else none

/-- The character class `[1-9]`. -/
def isNonZeroDigit (c : Char) : Bool := decide ('1' ≤ c ∧ c ≤ '9')

/-- The character class `\d` (ASCII digits, as without the Unicode option). -/
def isDigit (c : Char) : Bool := decide ('0' ≤ c ∧ c ≤ '9')

/-- A match of `kChannelRegex`, the pattern `\[Channel([1-9]\d*)\]`, that
starts at the first character of `s`: the answer is capture group 1.  The
greedy `\d*` takes the whole run of digits; giving one back cannot help, since
the character after a shorter run is a digit and not `]`. -/
def matchChannelAt (s : List Char) : Option (List Char) :=
  match dropLiteral "[Channel".toList s with
  | none => none
  | some [] => none
  | some (d :: rest) =>
    if isNonZeroDigit d then
      match rest.dropWhile isDigit with
      | ']' :: _ => some (d :: rest.takeWhile isDigit)
      | _ => none
    else none

/-- The call `kChannelRegex.match(group)`: the leftmost match of the pattern
anywhere in the subject, by its capture group 1. -/
def regexMatch : List Char → Option (List Char)
  | [] => none
  | c :: s =>
    match matchChannelAt (c :: s) with
    | some captured => some captured
    | none => regexMatch s

/-- The value of a string of decimal digits. -/
def decimalValue (digits : List Char) : Nat :=
  digits.foldl (fun acc c => acc * 10 + (c.toNat - '0'.toNat)) 0

/-- The call `QString::toInt(&ok)` on a non-empty string of decimal digits:
`ok` is false when the value does not fit a 32-bit `int`. -/
def toInt (digits : List Char) : Option Int :=
  if decimalValue digits ≤ 2147483647 then some (decimalValue digits : Int) else none

/-- `VinylControlManager::vinylInputFromGroup`. -/
def vinylInputFromGroup (group : String) : Int :=
  match regexMatch group.toList with
  | some captured =>
    match toInt captured with
    | some input => input - 1
    | none => -1
  | none => -1

/-- The decimal numeral of `n` without leading zeros, most significant digit
first, from the digits of `n`. -/
def decimal (n : Nat) : List Char :=
  (Nat.digits 10 n).reverse.map Nat.digitChar

/-- The group name `[Channel<n>]` with `n` written in decimal. -/
def channelGroup (n : Nat) : String :=
  "[Channel" ++ toString n ++ "]"

end VinylControlManager

/-! ## Concrete states used to exercise the theorems -/

/-- Input channel `[Channel1]`, handle 0. -/
def ch0 : ChannelHandleAndGroup := ⟨0, "[Channel1]"⟩

/-- A preset with three non-empty entries followed by one empty entry. -/
def presetP : EffectChainPreset :=
  { name := "P"
    mixMode := 1
    superKnob := 1
    effectPresets := [⟨"echo", false⟩, ⟨"reverb", false⟩, ⟨"flanger", false⟩, ⟨"", true⟩] }

/-- A preset store that holds an empty preset and then `presetP`. -/
def presetStore : EffectChainPresetManager :=
  [⟨"Empty", 0, 0, []⟩, presetP]

/-- A constructed chain slot with four empty effect slots. -/
def chain4 : EffectChainSlot :=
  ((((EffectChainSlot.constructed "[EffectRack1_EffectUnit1]" presetStore 0).addEffectSlot
    "[EffectRack1_EffectUnit1_Effect1]").addEffectSlot
    "[EffectRack1_EffectUnit1_Effect2]").addEffectSlot
    "[EffectRack1_EffectUnit1_Effect3]").addEffectSlot
    "[EffectRack1_EffectUnit1_Effect4]"

/-- The chain `chain4` after `enableForInputChannel(ch0)`: the channel is
enabled and has no enable button yet. -/
def chain4Enabled : EffectChainSlot := chain4.enableForInputChannel ch0

/-- Constants of the vinyl-control definitions with a maximum of four decks. -/
def defs4 : VinylControlDefs :=
  { kMaxNumberOfDecks := 4, VINYL_PREF_KEY := "[VinylControl]", MIXXX_VCMODE_RELATIVE := 1 }

/-- A constructed vinyl-control manager with empty settings. -/
def manager0 : VinylControlManager := VinylControlManager.constructed [] []

/-- Input channel `[Channel2]`, handle 1. -/
def ch1 : ChannelHandleAndGroup := ⟨1, "[Channel2]"⟩

/-- A run of calls on the two channels that registers, enables and disables
them several times. -/
def exampleCalls : List EffectChainSlot.Call :=
  [ .registerInputChannel ch0 1, .enableForInputChannel ch0, .registerInputChannel ch1 0,
    .slotChannelStatusChanged 1 ch1, .disableForInputChannel ch0, .disableForInputChannel ch0,
    .slotChannelStatusChanged 0 ch1, .enableForInputChannel ch0 ]

/-- A preset with five non-empty entries, one more than `chain4` has slots. -/
def preset5 : EffectChainPreset :=
  { name := "Five"
    mixMode := 0
    superKnob := 0
    effectPresets := [⟨"echo", false⟩, ⟨"reverb", false⟩, ⟨"flanger", false⟩,
      ⟨"phaser", false⟩, ⟨"filter", false⟩] }

/-- The chain slot as its constructor leaves it. -/
def chain0 : EffectChainSlot :=
  EffectChainSlot.constructed "[EffectRack1_EffectUnit1]" presetStore 0

/-- Three signal-quality reports. -/
def reportR1 : VinylSignalQualityReport := ⟨0, 1⟩

/-- The second report. -/
def reportR2 : VinylSignalQualityReport := ⟨0, 2⟩

/-- The third report. -/
def reportR3 : VinylSignalQualityReport := ⟨1, 3⟩

/-- The constructed manager after listeners 1 and 2 were added and the
producer pushed the three reports in the order R1, R2, R3. -/
def managerListening : VinylControlManager :=
  let s := VinylControlManager.runListenerCalls manager0 [.add 1, .add 2]
  { s with m_pProcessor :=
      { s.m_pProcessor with m_signalQualityFifo := some [reportR1, reportR2, reportR3] } }

theorem staticCastInt_intCast (n : Int) : staticCastInt ((n : Int) : Double) = n := by
  simp [staticCastInt]

namespace EffectChainSlot

theorem fillEffectStatesMaps_prefix (slots : List EffectSlot) (n : Nat) (i : Nat) :
    (List.range n).foldl
        (fun (arr : EffectStatesMapArray) i =>
          match slots[i]? with
          | some pEffectSlot => arr.fill i pEffectSlot
          | none => arr)
        EffectStatesMapArray.new i
      = if i < n then (slots[i]?).map EffectSlot.fillEffectStatesMap else none := by
  induction n with
  | zero => simp [EffectStatesMapArray.new]
  | succ n ih =>
    rw [List.range_succ, List.foldl_append]
    simp only [List.foldl_cons, List.foldl_nil]
    cases hn : slots[n]? with
    | none =>
      simp only []
      rw [ih]
      by_cases h1 : i < n
      · simp [h1, Nat.lt_succ_of_lt h1]
      · by_cases h2 : i = n
        · subst h2; simp [hn]
        · have : ¬ i < n + 1 := by omega
          simp [h1, this]
    | some sl =>
      simp only [EffectStatesMapArray.fill]
      by_cases h2 : i = n
      · subst h2; simp [hn]
      · rw [if_neg h2, ih]
        by_cases h1 : i < n
        · simp [h1, Nat.lt_succ_of_lt h1]
        · have : ¬ i < n + 1 := by omega
          simp [h1, this]

theorem fillEffectStatesMaps_apply (slots : List EffectSlot) (i : Nat) :
    fillEffectStatesMaps slots i
      = if i < slots.length then (slots[i]?).map EffectSlot.fillEffectStatesMap else none :=
  fillEffectStatesMaps_prefix slots slots.length i

/-! ## C1 to C3: enabling, disabling and the parameter message -/

/-- C1: calling `enableForInputChannel(c)` twice in a row leaves the same state
(the same EnabledChannelSet, the same sequence of sent messages, and every
other member) as calling it once, and likewise for `disableForInputChannel(c)`:
the second call sends nothing and changes nothing. -/
theorem C1_enable_disable_idempotent (s : EffectChainSlot) (c : ChannelHandleAndGroup) :
    (s.enableForInputChannel c).enableForInputChannel c = s.enableForInputChannel c ∧
    (s.disableForInputChannel c).disableForInputChannel c = s.disableForInputChannel c := by
  constructor
  · by_cases h : c ∈ s.m_enabledInputChannels
    · simp [enableForInputChannel, h]
    · simp [enableForInputChannel, h, writeRequest]
  · by_cases h : c ∈ s.m_enabledInputChannels
    · simp [disableForInputChannel, h, writeRequest]
    · simp [disableForInputChannel, h]

/-- C2: when channel `c` is not enabled, `enableForInputChannel(c)` appends
exactly one request to the sent messages, an enable-for-input-channel request
for the handle of `c`, and in its per-effect table the cells filled are
exactly those at the indexes `0 .. k-1` of the `k` effect slots, cell `i` being
the one filled by effect slot `i`. -/
theorem C2_enable_sends_full_table (s : EffectChainSlot) (c : ChannelHandleAndGroup)
    (h : c ∉ s.m_enabledInputChannels) :
    ∃ table : EffectStatesMapArray,
      (s.enableForInputChannel c).m_pMessenger
        = s.m_pMessenger ++
          [EffectsRequest.ENABLE_EFFECT_CHAIN_FOR_INPUT_CHANNEL
            s.m_pEngineEffectChain c.handle table] ∧
      (∀ (i : Nat) (hi : i < s.m_effectSlots.length),
        table i = some (s.m_effectSlots[i]).fillEffectStatesMap) ∧
      (∀ i : Nat, s.m_effectSlots.length ≤ i → table i = none) := by
  refine ⟨fillEffectStatesMaps s.m_effectSlots, ?_, ?_, ?_⟩
  · simp [enableForInputChannel, h, writeRequest]
  · intro i hi
    rw [fillEffectStatesMaps_apply, if_pos hi]
    simp [List.getElem?_eq_getElem hi]
  · intro i hi
    rw [fillEffectStatesMaps_apply, if_neg (by omega)]

/-- Witness of C2 on the chain with four effect slots. -/
theorem C2_enable_sends_full_table_witness :
    ch0 ∉ chain4.m_enabledInputChannels ∧
    chain4.m_effectSlots.length = 4 ∧
    ∃ table : EffectStatesMapArray,
      (chain4.enableForInputChannel ch0).m_pMessenger
        = chain4.m_pMessenger ++
          [EffectsRequest.ENABLE_EFFECT_CHAIN_FOR_INPUT_CHANNEL
            chain4.m_pEngineEffectChain ch0.handle table] ∧
      (∀ (i : Nat) (hi : i < chain4.m_effectSlots.length),
        table i = some (chain4.m_effectSlots[i]).fillEffectStatesMap) ∧
      (∀ i : Nat, chain4.m_effectSlots.length ≤ i → table i = none) :=
  ⟨by decide, by decide, C2_enable_sends_full_table chain4 ch0 (by decide)⟩

/-- C3: `setMixMode(X)` appends exactly one request, a set-chain-parameters
request carrying the enabled flag and the mix amount the state had before the
call together with the new mode `X`; the call leaves the enabled and mix
controls unchanged, the mode reads back as `X`, and the three fields of the
request are those of the state after the mode was written. -/
theorem C3_setMixMode_message (s : EffectChainSlot) (X : EffectChainMixMode) :
    (s.setMixMode X).m_pMessenger
      = s.m_pMessenger ++
        [EffectsRequest.SET_EFFECT_CHAIN_PARAMETERS s.m_pEngineEffectChain
          s.m_pControlChainEnabled.value X s.m_pControlChainMix.value] ∧
    (s.setMixMode X).m_pControlChainEnabled = s.m_pControlChainEnabled ∧
    (s.setMixMode X).m_pControlChainMix = s.m_pControlChainMix ∧
    (s.setMixMode X).mixMode = X ∧
    (s.setMixMode X).m_pMessenger
      = s.m_pMessenger ++
        [EffectsRequest.SET_EFFECT_CHAIN_PARAMETERS (s.setMixMode X).m_pEngineEffectChain
          (s.setMixMode X).m_pControlChainEnabled.value (s.setMixMode X).mixMode
          (s.setMixMode X).m_pControlChainMix.value] := by
  have hX : staticCastInt ((X : Int) : Double) = X := staticCastInt_intCast X
  simp [setMixMode, sendParameterUpdate, writeRequest, mixMode, hX]

end EffectChainSlot

namespace VinylControlManager

/-! ## C4 and C5: the configured deck count -/

theorem configureDeck_count (defs : VinylControlDefs) (s : VinylControlManager) (i : Int) :
    (configureDeck defs s i).m_iNumConfiguredDecks = s.m_iNumConfiguredDecks := by
  simp [configureDeck]

theorem slotNumDecksChanged_count (defs : VinylControlDefs) (s : VinylControlManager)
    (d : Double) :
    (slotNumDecksChanged defs s d).m_iNumConfiguredDecks
      = max s.m_iNumConfiguredDecks (min (staticCastInt d) defs.kMaxNumberOfDecks) := by
  unfold slotNumDecksChanged
  simp only []
  by_cases h1 : staticCastInt d > (defs.kMaxNumberOfDecks : Int)
  · rw [if_pos h1]
    by_cases h2 : (defs.kMaxNumberOfDecks : Int) ≤ s.m_iNumConfiguredDecks
    · rw [if_pos h2]; omega
    · rw [if_neg h2]; simp only []; omega
  · rw [if_neg h1]
    by_cases h2 : staticCastInt d ≤ s.m_iNumConfiguredDecks
    · rw [if_pos h2]; omega
    · rw [if_neg h2]; simp only []; omega

theorem slotNumDecksChanged_le_max (defs : VinylControlDefs) (s : VinylControlManager)
    (d : Double) (h : s.m_iNumConfiguredDecks ≤ defs.kMaxNumberOfDecks) :
    (slotNumDecksChanged defs s d).m_iNumConfiguredDecks ≤ defs.kMaxNumberOfDecks := by
  rw [slotNumDecksChanged_count]; omega

theorem runNumDecksChanges_le_max (defs : VinylControlDefs) (calls : List Double) :
    ∀ s : VinylControlManager, s.m_iNumConfiguredDecks ≤ defs.kMaxNumberOfDecks →
      (runNumDecksChanges defs s calls).m_iNumConfiguredDecks ≤ defs.kMaxNumberOfDecks := by
  induction calls with
  | nil => intro s h; simpa [runNumDecksChanges] using h
  | cons d rest ih =>
    intro s h
    have := ih (slotNumDecksChanged defs s d) (slotNumDecksChanged_le_max defs s d h)
    simpa [runNumDecksChanges] using this

/-- C4: `slotNumDecksChanged(n)` leaves a configured deck count that is at
least the count `c` before the call, and when the requested count is not above
`c` the call is a no-op: the count, the toggle table, every control value and
every setting are unchanged. -/
theorem C4_deck_count_never_shrinks (defs : VinylControlDefs) (s : VinylControlManager)
    (dNumDecks : Double) :
    s.m_iNumConfiguredDecks ≤ (slotNumDecksChanged defs s dNumDecks).m_iNumConfiguredDecks ∧
    (staticCastInt dNumDecks ≤ s.m_iNumConfiguredDecks →
      slotNumDecksChanged defs s dNumDecks = s) := by
  constructor
  · rw [slotNumDecksChanged_count]; omega
  · intro h
    unfold slotNumDecksChanged
    simp only []
    by_cases h1 : staticCastInt dNumDecks > (defs.kMaxNumberOfDecks : Int)
    · rw [if_pos h1, if_pos (by omega)]
    · rw [if_neg h1, if_pos h]

/-- Witness of C4: the count set to 4 and then to 2 remains 4, and the second
call changes nothing. -/
theorem C4_deck_count_never_shrinks_witness :
    (slotNumDecksChanged defs4 manager0 4).m_iNumConfiguredDecks = 4 ∧
    staticCastInt 2 ≤ (slotNumDecksChanged defs4 manager0 4).m_iNumConfiguredDecks ∧
    slotNumDecksChanged defs4 (slotNumDecksChanged defs4 manager0 4) 2
      = slotNumDecksChanged defs4 manager0 4 :=
  ⟨by decide, by decide,
    (C4_deck_count_never_shrinks defs4 (slotNumDecksChanged defs4 manager0 4) 2).2
      (by decide)⟩

/-- C5: after any sequence of `slotNumDecksChanged` calls on the constructed
manager (count 0) the configured deck count is at most `kMaxNumberOfDecks`;
and a call that requests a count `n` above the maximum while the count is
below the maximum leaves the count equal to the maximum.  The requested count
is `n = static_cast<int>(dNumDecks)`, for an argument within the range in
which that conversion is defined. -/
theorem C5_deck_count_clamped (defs : VinylControlDefs) (pConfig controls : KeyValueStore)
    (calls : List Double) :
    (runNumDecksChanges defs (constructed pConfig controls) calls).m_iNumConfiguredDecks
      ≤ defs.kMaxNumberOfDecks ∧
    ∀ (s : VinylControlManager) (dNumDecks : Double),
      (-2147483649 : Double) < dNumDecks → dNumDecks < 2147483648 →
      s.m_iNumConfiguredDecks < defs.kMaxNumberOfDecks →
      staticCastInt dNumDecks > defs.kMaxNumberOfDecks →
      (slotNumDecksChanged defs s dNumDecks).m_iNumConfiguredDecks = defs.kMaxNumberOfDecks := by
  constructor
  · apply runNumDecksChanges_le_max
    simp [constructed]
  · intro s d _ _ h1 h2
    rw [slotNumDecksChanged_count]; omega

/-- Witness of C5: from the constructed manager, requests for 2, 7 and 3
decks with a maximum of 4 leave 4 decks; the request for 7, a value within
the range of `int`, is made at count 2, below the maximum. -/
theorem C5_deck_count_clamped_witness :
    (runNumDecksChanges defs4 manager0 [2, 7, 3]).m_iNumConfiguredDecks = 4 ∧
    ((-2147483649 : Double) < 7 ∧ (7 : Double) < 2147483648) ∧
    (slotNumDecksChanged defs4 manager0 2).m_iNumConfiguredDecks < defs4.kMaxNumberOfDecks ∧
    staticCastInt 7 > defs4.kMaxNumberOfDecks ∧
    (slotNumDecksChanged defs4 (slotNumDecksChanged defs4 manager0 2) 7).m_iNumConfiguredDecks
      = defs4.kMaxNumberOfDecks :=
  ⟨by decide, ⟨by decide, by decide⟩, by decide, by decide,
    (C5_deck_count_clamped defs4 [] [] []).2 (slotNumDecksChanged defs4 manager0 2) 7
      (by decide) (by decide) (by decide) (by decide)⟩

/-! ## C6 and C7: parsing a channel group name -/

theorem dropLiteral_append (lit rest : List Char) :
    dropLiteral lit (lit ++ rest) = some rest := by
  induction lit with
  | nil => cases rest <;> rfl
  | cons l lit ih => simp [dropLiteral, ih]

theorem takeWhile_digits_bracket (ds post : List Char) (hds : ∀ c ∈ ds, isDigit c = true) :
    (ds ++ ']' :: post).takeWhile isDigit = ds := by
  induction ds with
  | nil =>
    have : isDigit ']' = false := by decide
    simp [List.takeWhile, this]
  | cons a t ih =>
    have ha : isDigit a = true := hds a (List.mem_cons_self a t)
    have ht : ∀ c ∈ t, isDigit c = true := fun c hc => hds c (List.mem_cons_of_mem a hc)
    simp [List.takeWhile, ha, ih ht]

theorem dropWhile_digits_bracket (ds post : List Char) (hds : ∀ c ∈ ds, isDigit c = true) :
    (ds ++ ']' :: post).dropWhile isDigit = ']' :: post := by
  induction ds with
  | nil =>
    have : isDigit ']' = false := by decide
    simp [List.dropWhile, this]
  | cons a t ih =>
    have ha : isDigit a = true := hds a (List.mem_cons_self a t)
    have ht : ∀ c ∈ t, isDigit c = true := fun c hc => hds c (List.mem_cons_of_mem a hc)
    simp [List.dropWhile, ha, ih ht]

/-- The pattern matches at the start of `[Channel`, a digit `1-9`, a run of
digits, `]`, whatever follows, and captures the digits. -/
theorem matchChannelAt_wellFormed (d : Char) (ds post : List Char)
    (hd : isNonZeroDigit d = true) (hds : ∀ c ∈ ds, isDigit c = true) :
    matchChannelAt ("[Channel".toList ++ (d :: ds ++ ']' :: post)) = some (d :: ds) := by
  unfold matchChannelAt
  rw [dropLiteral_append]
  simp only [List.cons_append, hd, if_true]
  rw [dropWhile_digits_bracket ds post hds, takeWhile_digits_bracket ds post hds]
  rfl

theorem regexMatch_of_matchChannelAt (l captured : List Char)
    (h : matchChannelAt l = some captured) : regexMatch l = some captured := by
  cases l with
  | nil => simp [matchChannelAt, dropLiteral] at h
  | cons c t => simp [regexMatch, h]

theorem digitChar_value : ∀ d, d < 10 →
    (Nat.digitChar d).toNat - '0'.toNat = d := by decide

theorem digitChar_isDigit : ∀ d, d < 10 → isDigit (Nat.digitChar d) = true := by
  decide

theorem digitChar_isNonZeroDigit : ∀ d, d < 10 → d ≠ 0 →
    isNonZeroDigit (Nat.digitChar d) = true := by decide

theorem decimalValue_append_single (l : List Char) (c : Char) :
    decimalValue (l ++ [c]) = decimalValue l * 10 + (c.toNat - '0'.toNat) := by
  simp [decimalValue, List.foldl_append]

/-- Reading back the numeral of a list of digits gives the number they
denote. -/
theorem decimalValue_digits (L : List Nat) (hL : ∀ d ∈ L, d < 10) :
    decimalValue (L.reverse.map Nat.digitChar) = Nat.ofDigits 10 L := by
  induction L with
  | nil => simp [decimalValue]
  | cons a t ih =>
    have ha : a < 10 := hL a (List.mem_cons_self a t)
    have ht : ∀ d ∈ t, d < 10 := fun d hd => hL d (List.mem_cons_of_mem a hd)
    rw [List.reverse_cons, List.map_append, List.map_cons, List.map_nil,
      decimalValue_append_single, ih ht, digitChar_value a ha, Nat.ofDigits_cons]
    omega

theorem decimalValue_decimal (n : Nat) : decimalValue (decimal n) = n := by
  unfold decimal
  rw [decimalValue_digits _ (fun d hd => Nat.digits_lt_base (by norm_num) hd),
    Nat.ofDigits_digits]

/-- The numeral of a positive number starts with a digit `1-9` and goes on
with digits. -/
theorem decimal_shape (n : Nat) (hn : n ≠ 0) :
    ∃ d ds, decimal n = d :: ds ∧ isNonZeroDigit d = true ∧ ∀ c ∈ ds, isDigit c = true := by
  have hne : Nat.digits 10 n ≠ [] := Nat.digits_ne_nil_iff_ne_zero.mpr hn
  have hlast : (Nat.digits 10 n).getLast hne ≠ 0 := Nat.getLast_digit_ne_zero 10 hn
  have hlt : ∀ d ∈ Nat.digits 10 n, d < 10 :=
    fun d hd => Nat.digits_lt_base (by norm_num) hd
  obtain ⟨front, last, hsplit⟩ : ∃ front last, Nat.digits 10 n = front ++ [last] :=
    ⟨_, _, (List.dropLast_append_getLast hne).symm⟩
  have hlast2 : last ≠ 0 := by
    have : (Nat.digits 10 n).getLast hne = last := by
      simp [hsplit]
    rw [this] at hlast; exact hlast
  refine ⟨Nat.digitChar last,
    front.reverse.map Nat.digitChar, ?_, ?_, ?_⟩
  · simp [decimal, hsplit]
  · exact digitChar_isNonZeroDigit last (hlt last (by simp [hsplit])) hlast2
  · intro c hc
    rw [List.mem_map] at hc
    obtain ⟨d, hd, rfl⟩ := hc
    exact digitChar_isDigit d (hlt d (by
      rw [hsplit]; exact List.mem_append_left _ (List.mem_reverse.mp hd)))

theorem toDigitsCore_eq_decimal (fuel : Nat) :
    ∀ (n : Nat) (ds : List Char), n < fuel → 0 < n →
      Nat.toDigitsCore 10 fuel n ds = decimal n ++ ds := by
  induction fuel with
  | zero => intro n ds h; omega
  | succ fuel ih =>
    intro n ds hlt hpos
    have hdig : Nat.digits 10 n = (n % 10) :: Nat.digits 10 (n / 10) :=
      Nat.digits_def' (by norm_num) hpos
    unfold Nat.toDigitsCore
    simp only []
    by_cases h0 : n / 10 = 0
    · rw [if_pos h0]
      simp [decimal, hdig, h0]
    · rw [if_neg h0, ih (n / 10) _ (by omega) (by omega)]
      simp [decimal, hdig]

/-- The standard rendering `toString n` of a positive number is its decimal
numeral. -/
theorem toString_toList_eq_decimal (n : Nat) (h : 0 < n) :
    (toString n).toList = decimal n := by
  show (Nat.repr n).toList = decimal n
  unfold Nat.repr Nat.toDigits
  rw [toDigitsCore_eq_decimal (n + 1) n [] (by omega) h]
  simp [List.asString]

theorem channelGroup_toList (n : Nat) (h : 0 < n) :
    (channelGroup n).toList = "[Channel".toList ++ (decimal n ++ [']']) := by
  rw [← toString_toList_eq_decimal n h]
  simp [channelGroup, String.toList]

/-- C6: for every integer `N` with `1 <= N <= 2^31 - 1`, written in decimal
without leading zeros (the rendering `toString N`),
`vinylInputFromGroup("[Channel" ++ N ++ "]")` returns `N - 1`. -/
theorem C6_channel_group_resolves (N : Nat) (h1 : 1 ≤ N) (h2 : N ≤ 2147483647) :
    vinylInputFromGroup ("[Channel" ++ toString N ++ "]") = (N : Int) - 1 := by
  obtain ⟨d, ds, hdec, hd, hds⟩ := decimal_shape N (by omega)
  have hval : decimalValue (d :: ds) = N := by rw [← hdec]; exact decimalValue_decimal N
  have hmatch : regexMatch (channelGroup N).toList = some (d :: ds) := by
    apply regexMatch_of_matchChannelAt
    rw [channelGroup_toList N (by omega), hdec]
    exact matchChannelAt_wellFormed d ds [] hd hds
  show vinylInputFromGroup (channelGroup N) = (N : Int) - 1
  unfold vinylInputFromGroup
  rw [hmatch]
  simp [toInt, hval, h2]

/-- Witness of C6: `[Channel3]` resolves to 2. -/
theorem C6_channel_group_resolves_witness :
    "[Channel" ++ toString 3 ++ "]" = "[Channel3]" ∧
    vinylInputFromGroup ("[Channel" ++ toString 3 ++ "]") = 2 :=
  ⟨by decide, C6_channel_group_resolves 3 (by decide) (by decide)⟩

/-- C7, evaluated on a name with characters before and after a well-formed
`[Channel3]`: the unanchored match finds the pattern inside the name and the
function answers 2, not the not-found value -1; `[Deck1]`, `[Channel0]` and
`[Channel03]` do answer -1. -/
theorem C7_embedded_channel_name_resolves :
    vinylInputFromGroup "x[Channel3]y" = 2 ∧
    vinylInputFromGroup "[Deck1]" = -1 ∧
    vinylInputFromGroup "[Channel0]" = -1 ∧
    vinylInputFromGroup "[Channel03]" = -1 := by
  decide

end VinylControlManager

namespace EffectChainSlot

/-! ## C8: looking up an effect slot -/

/-- The three cases of `getEffectSlot(s)` on a chain with `k` slots: below `k`
the slot at index `s`; above `k` the empty handle of the violation branch; at
`s = k` the guard `slotNumber <= size` lets the call through and the slot table
is indexed out of range. -/
theorem getEffectSlot_cases (s : EffectChainSlot) (slotNumber : Nat) :
    (∀ h : slotNumber < s.m_effectSlots.length,
      s.getEffectSlot slotNumber = .ok (some s.m_effectSlots[slotNumber])) ∧
    (s.m_effectSlots.length < slotNumber → s.getEffectSlot slotNumber = .ok none) ∧
    (slotNumber = s.m_effectSlots.length →
      s.getEffectSlot slotNumber = .error Fault.indexOutOfRange) := by
  refine ⟨?_, ?_, ?_⟩
  · intro h
    have hle : slotNumber ≤ s.m_effectSlots.length := Nat.le_of_lt h
    simp [getEffectSlot, hle, List.getElem?_eq_getElem h]
  · intro h
    have hle : ¬ slotNumber ≤ s.m_effectSlots.length := by omega
    simp [getEffectSlot, hle]
  · intro h
    subst h
    simp [getEffectSlot]

/-- C8, evaluated on the chain with four effect slots: `getEffectSlot(4)` does
not take the violation branch but indexes the slot table at 4, out of range;
`getEffectSlot(5)` answers the empty handle and `getEffectSlot(3)` the slot at
index 3. -/
theorem C8_getEffectSlot_at_size_faults :
    chain4.m_effectSlots.length = 4 ∧
    chain4.getEffectSlot 4 = .error Fault.indexOutOfRange ∧
    chain4.getEffectSlot 5 = .ok none ∧
    chain4.getEffectSlot 3 = .ok chain4.m_effectSlots[3]? := by
  refine ⟨by decide, ?_, ?_, ?_⟩
  · exact (getEffectSlot_cases chain4 4).2.2 (by decide)
  · exact (getEffectSlot_cases chain4 5).2.1 (by decide)
  · have h : 3 < chain4.m_effectSlots.length := by decide
    rw [(getEffectSlot_cases chain4 3).1 h, List.getElem?_eq_getElem h]

/-! ## C9: loading a chain preset -/

/-- What the loop of `loadChainPreset` passes to `loadEffectFromPreset` for
one entry of the preset: null for an empty entry, the entry otherwise. -/
theorem loadEffectPresets_step (pEffectPreset : EffectPreset) (rest : List EffectPreset)
    (i : Nat) (slots : List EffectSlot) (pEffectSlot : EffectSlot)
    (h : slots[i]? = some pEffectSlot) :
    loadEffectPresets (pEffectPreset :: rest) i slots
      = loadEffectPresets rest (i + 1)
          (slots.set i (pEffectSlot.loadEffectFromPreset
            (if pEffectPreset.isEmpty then none else some pEffectPreset))) := by
  cases he : pEffectPreset.isEmpty <;> simp [loadEffectPresets, h, he]

theorem loadEffectPresets_spec (presets : List EffectPreset) :
    ∀ (i : Nat) (slots : List EffectSlot), i + presets.length ≤ slots.length →
      ∃ slots', loadEffectPresets presets i slots = .ok slots' ∧
        slots'.length = slots.length ∧
        (∀ j, j < i → slots'[j]? = slots[j]?) ∧
        (∀ j, i + presets.length ≤ j → slots'[j]? = slots[j]?) ∧
        (∀ j (hj : j < presets.length),
          slots'[i + j]? = (slots[i + j]?).map (fun sl =>
            sl.loadEffectFromPreset (if presets[j].isEmpty then none else some presets[j]))) := by
  induction presets with
  | nil =>
    intro i slots _
    exact ⟨slots, rfl, rfl, fun _ _ => rfl, fun _ _ => rfl, fun j hj => by simp at hj⟩
  | cons p rest ih =>
    intro i slots hlen
    simp only [List.length_cons] at hlen
    have hi : i < slots.length := by omega
    have hget : slots[i]? = some slots[i] := List.getElem?_eq_getElem hi
    obtain ⟨slots', hrun, hlen', hbelow, habove, hat⟩ :=
      ih (i + 1) (slots.set i (slots[i].loadEffectFromPreset
        (if p.isEmpty then none else some p))) (by rw [List.length_set]; omega)
    refine ⟨slots', ?_, ?_, ?_, ?_, ?_⟩
    · rw [loadEffectPresets_step p rest i slots slots[i] hget]; exact hrun
    · rw [hlen', List.length_set]
    · intro j hj
      rw [hbelow j (by omega), List.getElem?_set_ne (by omega)]
    · intro j hj
      simp only [List.length_cons] at hj
      rw [habove j (by omega), List.getElem?_set_ne (by omega)]
    · intro j hj
      cases j with
      | zero =>
        simp only [Nat.add_zero, List.getElem_cons_zero]
        rw [hbelow i (by omega), List.getElem?_set_self hi, hget]
        rfl
      | succ j =>
        simp only [List.length_cons] at hj
        have hj2 : j < rest.length := by omega
        have h1 := hat j hj2
        have e : i + (j + 1) = i + 1 + j := by omega
        rw [e, h1, List.getElem?_set_ne (by omega)]
        simp

/-- C9: on a chain with `k` effect slots, `loadChainPreset(P)` for a non-null
preset `P` with at most `k` per-slot entries returns, and afterwards slot `i`
holds entry `i` of `P` when that entry is non-empty and is cleared when it is
empty, every slot beyond the entries of `P` is cleared, the slot count is still
`k`, the mix mode is that of `P`, the default of the super parameter is the
super-knob value of `P`, the recorded preset name is the name of `P`, and the
published `loaded_preset` value is the index of that name in the Preset
Store. -/
theorem C9_loadChainPreset_loads (s : EffectChainSlot) (P : EffectChainPreset)
    (h : P.effectPresets.length ≤ s.m_effectSlots.length) :
    ∃ s', s.loadChainPreset (some P) = .ok s' ∧
      s'.m_effectSlots.length = s.m_effectSlots.length ∧
      (∀ i (hi : i < P.effectPresets.length),
        (s'.m_effectSlots[i]?).map (fun sl => sl.m_pEffect)
          = some (if P.effectPresets[i].isEmpty then none else some P.effectPresets[i])) ∧
      (∀ i, P.effectPresets.length ≤ i → i < s.m_effectSlots.length →
        (s'.m_effectSlots[i]?).map (fun sl => sl.m_pEffect) = some none) ∧
      s'.mixMode = P.mixMode ∧
      s'.m_pControlChainSuperParameter.defaultValue = P.superKnob ∧
      s'.m_presetName = P.name ∧
      s'.m_pControlLoadedPreset.value
        = ((s.m_pChainPresetManager.presetIndex P.name : Int) : Double) := by
  have hlen1 : (s.slotControlClear 1).m_effectSlots.length = s.m_effectSlots.length := by
    simp [slotControlClear]
  obtain ⟨slots', hrun, hlen', _, habove, hat⟩ :=
    loadEffectPresets_spec P.effectPresets 0 (s.slotControlClear 1).m_effectSlots
      (by rw [hlen1]; omega)
  have hX : staticCastInt ((P.mixMode : Int) : Double) = P.mixMode :=
    staticCastInt_intCast P.mixMode
  simp only [loadChainPreset, hrun]
  refine ⟨_, rfl, ?_, ?_, ?_, ?_, ?_, ?_, ?_⟩
  · simp [setPresetName, setMixMode, sendParameterUpdate, writeRequest, hlen', hlen1]
  · intro i hi
    have h1 := hat i hi
    rw [Nat.zero_add] at h1
    have hi2 : i < s.m_effectSlots.length := by omega
    simp [setPresetName, setMixMode, sendParameterUpdate, writeRequest, h1, slotControlClear,
      List.getElem?_eq_getElem hi2, EffectSlot.loadEffectFromPreset]
  · intro i hi1 hi2
    have h1 := habove i (by omega)
    have hpos : (1 : Double) > 0 := by norm_num
    simp [setPresetName, setMixMode, sendParameterUpdate, writeRequest, h1, slotControlClear,
      List.getElem?_eq_getElem hi2, EffectSlot.slotClear, hpos]
  · simp [setPresetName, setMixMode, sendParameterUpdate, writeRequest, mixMode, hX]
  · simp [setPresetName, setMixMode, sendParameterUpdate, writeRequest]
  · simp [setPresetName, setMixMode, sendParameterUpdate, writeRequest]
  · simp [setPresetName, setMixMode, sendParameterUpdate, writeRequest, presetIndex,
      slotControlClear]

/-- Witness of C9 (scenario A): four slots, a preset with three non-empty
entries and then one empty entry; afterwards slots 0 to 2 hold the entries of
the preset, slot 3 is cleared and the published index is the index 1 of the
preset in the store. -/
theorem C9_loadChainPreset_loads_witness :
    presetP.effectPresets.length ≤ chain4.m_effectSlots.length ∧
    (∃ s', chain4.loadChainPreset (some presetP) = .ok s' ∧
      s'.m_effectSlots.length = chain4.m_effectSlots.length ∧
      (∀ i (hi : i < presetP.effectPresets.length),
        (s'.m_effectSlots[i]?).map (fun sl => sl.m_pEffect)
          = some (if presetP.effectPresets[i].isEmpty then none
              else some presetP.effectPresets[i])) ∧
      (∀ i, presetP.effectPresets.length ≤ i → i < chain4.m_effectSlots.length →
        (s'.m_effectSlots[i]?).map (fun sl => sl.m_pEffect) = some none) ∧
      s'.mixMode = presetP.mixMode ∧
      s'.m_pControlChainSuperParameter.defaultValue = presetP.superKnob ∧
      s'.m_presetName = presetP.name ∧
      s'.m_pControlLoadedPreset.value
        = ((chain4.m_pChainPresetManager.presetIndex presetP.name : Int) : Double)) ∧
    (chain4.loadChainPreset (some presetP)).toOption.map
        (fun s' => s'.m_effectSlots.map (fun sl => sl.m_pEffect))
      = some [some ⟨"echo", false⟩, some ⟨"reverb", false⟩, some ⟨"flanger", false⟩, none] ∧
    chain4.m_pChainPresetManager.presetIndex presetP.name = 1 :=
  ⟨by decide, C9_loadChainPreset_loads chain4 presetP (by decide), by decide, by decide⟩

/-! ## C10: registering an input channel -/

/-- C10 as stated fails on a channel that is enabled but not registered: on
`chain4Enabled`, reached from the constructed chain by
`enableForInputChannel(ch0)`, the channel `ch0` has no enable button, the
initial value 1 reads as enabled, and `registerInputChannel(ch0, 1)` sends no
message at all. -/
theorem C10_register_enabled_channel_sends_nothing :
    (chain4Enabled.m_channelEnableButtons.lookup ch0).isSome = false ∧
    (1 : Double) > 0 ∧
    ch0 ∈ chain4Enabled.m_enabledInputChannels ∧
    (chain4Enabled.registerInputChannel ch0 1).m_pMessenger.length
      = chain4Enabled.m_pMessenger.length ∧
    ((chain4Enabled.registerInputChannel ch0 1).m_pMessenger.drop
      chain4Enabled.m_pMessenger.length).countP EffectsRequest.isEnable = 0 := by
  decide

/-- C10, amended: for a channel `c` that is not yet registered,
`registerInputChannel(c, v)` with `v > 0` leaves `c` in the EnabledChannelSet,
and it sends exactly one enable-for-input-channel message for `c` when `c` was
not in the EnabledChannelSet before the call and no message when it was; with
a value that does not read as enabled it sends no message and leaves the
EnabledChannelSet unchanged; and for a channel that is already registered the
call changes no state and sends no message. -/
theorem C10_registerInputChannel (s : EffectChainSlot) (c : ChannelHandleAndGroup)
    (initialValue : Double) :
    ((s.m_channelEnableButtons.lookup c).isSome = false → initialValue > 0 →
      c ∈ (s.registerInputChannel c initialValue).m_enabledInputChannels ∧
      (c ∉ s.m_enabledInputChannels →
        ∃ table : EffectStatesMapArray,
          (s.registerInputChannel c initialValue).m_pMessenger
            = s.m_pMessenger ++
              [EffectsRequest.ENABLE_EFFECT_CHAIN_FOR_INPUT_CHANNEL
                s.m_pEngineEffectChain c.handle table]) ∧
      (c ∈ s.m_enabledInputChannels →
        (s.registerInputChannel c initialValue).m_pMessenger = s.m_pMessenger)) ∧
    ((s.m_channelEnableButtons.lookup c).isSome = false → ¬ initialValue > 0 →
      (s.registerInputChannel c initialValue).m_pMessenger = s.m_pMessenger ∧
      (s.registerInputChannel c initialValue).m_enabledInputChannels
        = s.m_enabledInputChannels) ∧
    ((s.m_channelEnableButtons.lookup c).isSome = true →
      s.registerInputChannel c initialValue = s) := by
  refine ⟨?_, ?_, ?_⟩
  · intro hreg hpos
    have hb : (ControlPushButton.make initialValue).toBool = true := by
      simp [ControlPushButton.make, ControlObject.toBool, hpos]
    refine ⟨?_, ?_, ?_⟩
    · by_cases hc : c ∈ s.m_enabledInputChannels
      · simp [registerInputChannel, hreg, hb, enableForInputChannel, hc]
      · simp [registerInputChannel, hreg, hb, enableForInputChannel, hc, writeRequest]
    · intro hc
      exact ⟨fillEffectStatesMaps s.m_effectSlots, by
        simp [registerInputChannel, hreg, hb, enableForInputChannel, hc, writeRequest]⟩
    · intro hc
      simp [registerInputChannel, hreg, hb, enableForInputChannel, hc]
  · intro hreg hneg
    have hb : (ControlPushButton.make initialValue).toBool = false := by
      simp [ControlPushButton.make, ControlObject.toBool]
      exact not_lt.mp hneg
    simp [registerInputChannel, hreg, hb]
  · intro hreg
    simp [registerInputChannel, hreg]

/-- Witness of the amended C10 (scenario B): registering `ch0` with initial
value 1 on the chain with four slots, where `ch0` is neither registered nor
enabled, leaves `ch0` enabled and sends exactly one enable message. -/
theorem C10_registerInputChannel_witness :
    (chain4.m_channelEnableButtons.lookup ch0).isSome = false ∧
    ch0 ∉ chain4.m_enabledInputChannels ∧
    ch0 ∈ (chain4.registerInputChannel ch0 1).m_enabledInputChannels ∧
    (∃ table : EffectStatesMapArray,
      (chain4.registerInputChannel ch0 1).m_pMessenger
        = chain4.m_pMessenger ++
          [EffectsRequest.ENABLE_EFFECT_CHAIN_FOR_INPUT_CHANNEL
            chain4.m_pEngineEffectChain ch0.handle table]) ∧
    (chain4Enabled.registerInputChannel ch0 1).m_pMessenger = chain4Enabled.m_pMessenger ∧
    (chain4.registerInputChannel ch0 0).m_pMessenger = chain4.m_pMessenger ∧
    (chain4.registerInputChannel ch0 1).registerInputChannel ch0 1
      = chain4.registerInputChannel ch0 1 :=
  ⟨by decide, by decide,
    ((C10_registerInputChannel chain4 ch0 1).1 (by decide) (by decide)).1,
    ((C10_registerInputChannel chain4 ch0 1).1 (by decide) (by decide)).2.1 (by decide),
    ((C10_registerInputChannel chain4Enabled ch0 1).1 (by decide) (by decide)).2.2 (by decide),
    ((C10_registerInputChannel chain4 ch0 0).2.1 (by decide) (by decide)).1,
    (C10_registerInputChannel (chain4.registerInputChannel ch0 1) ch0 1).2.2 (by decide)⟩

end EffectChainSlot

namespace VinylControlManager

/-! ## C11: the periodic drain -/

theorem drainLoop_eq (listeners : QSet VinylSignalQualityListener)
    (fifo : List VinylSignalQualityReport) :
    ∀ log : List Delivery,
      drainLoop listeners fifo log = ([], log ++ fifo.flatMap (dispatchReport listeners)) := by
  induction fifo with
  | nil => intro log; simp [drainLoop]
  | cons r rest ih =>
    intro log
    rw [drainLoop, ih]
    simp [List.flatMap_cons, List.append_assoc]

theorem updateSignalQualityListeners_eq (s : VinylControlManager)
    (reports : List VinylSignalQualityReport)
    (h : s.m_pProcessor.m_signalQualityFifo = some reports) :
    s.updateSignalQualityListeners
      = ({ s with m_pProcessor := { s.m_pProcessor with m_signalQualityFifo := some [] } },
          reports.flatMap (dispatchReport s.m_listeners)) := by
  unfold updateSignalQualityListeners
  rw [h]
  simp [drainLoop_eq]

/-- What one listener receives of one dispatched report: the report, once, when
the listener is among those visited, and nothing otherwise. -/
theorem filter_dispatch (order : List VinylSignalQualityListener) (hnd : order.Nodup)
    (r : VinylSignalQualityReport) (l : VinylSignalQualityListener) :
    (order.map (fun p => (⟨p, r⟩ : Delivery))).filter (fun d => decide (d.pListener = l))
      = if l ∈ order then [⟨l, r⟩] else [] := by
  induction order with
  | nil => simp
  | cons a t ih =>
    have hat : a ∉ t := (List.nodup_cons.mp hnd).1
    have ht := ih (List.nodup_cons.mp hnd).2
    by_cases hal : a = l
    · subst hal
      simp [List.filter_cons, ht, hat]
    · have hla : ¬ l = a := fun e => hal e.symm
      simp [List.filter_cons, hal, ht, hla]

theorem filter_drained (order : List VinylSignalQualityListener) (hnd : order.Nodup)
    (l : VinylSignalQualityListener) (reports : List VinylSignalQualityReport) :
    ((reports.flatMap (fun r => order.map (fun p => (⟨p, r⟩ : Delivery)))).filter
        (fun d => decide (d.pListener = l))).map (fun d => d.report)
      = if l ∈ order then reports else [] := by
  induction reports with
  | nil => simp
  | cons r rest ih =>
    rw [List.flatMap_cons, List.filter_append, List.map_append, ih, filter_dispatch order hnd]
    by_cases hl : l ∈ order <;> simp [hl]

/-- C11: with the listener set `L` and the Report Channel holding `R1..Rn`,
one call of `updateSignalQualityListeners` (a total function, so the call
returns) leaves the Report Channel empty and the listener set as it was, and
its deliveries are, for `R1`, then `R2`, ... then `Rn`, one delivery of that
report to each listener of `L`; so every listener of `L` receives exactly
`R1..Rn` in arrival order, each once, a listener outside `L` receives nothing,
and `Ri` goes to all listeners before `R(i+1)` goes to any. -/
theorem C11_drain_dispatches_in_order (s : VinylControlManager)
    (reports : List VinylSignalQualityReport)
    (h : s.m_pProcessor.m_signalQualityFifo = some reports) :
    s.updateSignalQualityListeners.1.m_pProcessor.m_signalQualityFifo = some [] ∧
    s.updateSignalQualityListeners.1.m_listeners = s.m_listeners ∧
    (∃ order : List VinylSignalQualityListener,
      order.Nodup ∧ (∀ l, l ∈ order ↔ l ∈ s.m_listeners) ∧
      s.updateSignalQualityListeners.2
        = reports.flatMap (fun r => order.map (fun p => (⟨p, r⟩ : Delivery)))) ∧
    (∀ l ∈ s.m_listeners,
      (s.updateSignalQualityListeners.2.filter (fun d => decide (d.pListener = l))).map
          (fun d => d.report) = reports) ∧
    (∀ l, l ∉ s.m_listeners →
      s.updateSignalQualityListeners.2.filter (fun d => decide (d.pListener = l)) = []) ∧
    s.timerEvent = s.updateSignalQualityListeners := by
  have hnd : (QSet.iterate s.m_listeners).Nodup := List.nodup_dedup _
  have hmem : ∀ l, l ∈ QSet.iterate s.m_listeners ↔ l ∈ s.m_listeners :=
    fun l => List.mem_dedup
  rw [updateSignalQualityListeners_eq s reports h]
  refine ⟨rfl, rfl, ⟨QSet.iterate s.m_listeners, hnd, hmem, rfl⟩, ?_, ?_, ?_⟩
  · intro l hl
    have := filter_drained (QSet.iterate s.m_listeners) hnd l reports
    rw [if_pos ((hmem l).mpr hl)] at this
    exact this
  · intro l hl
    have h1 := filter_drained (QSet.iterate s.m_listeners) hnd l reports
    rw [if_neg (fun hc => hl ((hmem l).mp hc))] at h1
    have h2 := List.map_eq_nil_iff.mp h1
    exact h2
  · simp [timerEvent, updateSignalQualityListeners_eq s reports h]

/-- Witness of C11 (scenario E): listeners 1 and 2, reports R1, R2, R3; one
drain delivers R1 to both, then R2 to both, then R3 to both, and leaves the
channel empty. -/
theorem C11_drain_dispatches_in_order_witness :
    managerListening.m_listeners = [1, 2] ∧
    managerListening.m_pProcessor.m_signalQualityFifo = some [reportR1, reportR2, reportR3] ∧
    managerListening.updateSignalQualityListeners.1.m_pProcessor.m_signalQualityFifo
      = some [] ∧
    managerListening.updateSignalQualityListeners.2
      = [⟨1, reportR1⟩, ⟨2, reportR1⟩, ⟨1, reportR2⟩, ⟨2, reportR2⟩,
         ⟨1, reportR3⟩, ⟨2, reportR3⟩] ∧
    (managerListening.updateSignalQualityListeners.2.filter
        (fun d => decide (d.pListener = 2))).map (fun d => d.report)
      = [reportR1, reportR2, reportR3] :=
  ⟨by decide, by decide,
    (C11_drain_dispatches_in_order managerListening [reportR1, reportR2, reportR3]
      (by decide)).1,
    by decide,
    (C11_drain_dispatches_in_order managerListening [reportR1, reportR2, reportR3]
      (by decide)).2.2.2.1 2 (by decide)⟩

/-! ## C12: arming and disarming the periodic drain -/

theorem insert_ne_nil (L : QSet VinylSignalQualityListener) (l : VinylSignalQualityListener) :
    L.insert l ≠ [] := by
  unfold QSet.insert
  by_cases h : l ∈ L
  · rw [if_pos h]; exact List.ne_nil_of_mem h
  · rw [if_neg h]; simp

theorem add_arms (s : VinylControlManager) (l : VinylSignalQualityListener) :
    (s.addSignalQualityListener l).m_iTimerId ≠ -1 ∧
    (s.addSignalQualityListener l).m_pProcessor.m_bReportSignalQuality = true ∧
    (s.addSignalQualityListener l).m_listeners = s.m_listeners.insert l := by
  unfold addSignalQualityListener
  by_cases h : s.m_iTimerId = -1
  · simp only [h, if_true, startTimer]
    refine ⟨?_, ?_, ?_⟩
    · show ((s.timersStarted + 1 : Nat) : Int) ≠ -1
      omega
    · trivial
    · trivial
  · simp only [h, if_false]
    exact ⟨h, trivial, trivial⟩

theorem remove_listeners (s : VinylControlManager) (l : VinylSignalQualityListener) :
    (s.removeSignalQualityListener l).m_listeners = s.m_listeners.remove l := by
  unfold removeSignalQualityListener
  simp only []
  split
  · split <;> rfl
  · rfl

theorem remove_last_disarms (s : VinylControlManager) (l : VinylSignalQualityListener)
    (h : s.m_listeners.remove l = []) :
    (s.removeSignalQualityListener l).m_iTimerId = -1 ∧
    (s.removeSignalQualityListener l).m_pProcessor.m_bReportSignalQuality = false := by
  unfold removeSignalQualityListener
  simp only [h, QSet.empty, List.isEmpty_nil, if_true]
  by_cases ht : s.m_iTimerId = -1
  · simp [ht]
  · simp [ht]

theorem remove_other_keeps (s : VinylControlManager) (l : VinylSignalQualityListener)
    (h : s.m_listeners.remove l ≠ []) :
    (s.removeSignalQualityListener l).m_iTimerId = s.m_iTimerId ∧
    (s.removeSignalQualityListener l).m_pProcessor = s.m_pProcessor := by
  unfold removeSignalQualityListener
  have : (QSet.empty (s.m_listeners.remove l)) = false := by
    simp [QSet.empty, List.isEmpty_iff, h]
  simp [this]

theorem armed_add (s : VinylControlManager) (l : VinylSignalQualityListener) :
    ArmedIffListening (s.addSignalQualityListener l) := by
  obtain ⟨ht, hr, hl⟩ := add_arms s l
  have hne : (s.addSignalQualityListener l).m_listeners ≠ [] := by
    rw [hl]; exact insert_ne_nil _ _
  exact ⟨⟨fun _ => hne, fun _ => ht⟩, ⟨fun _ => hne, fun _ => hr⟩⟩

theorem armed_remove (s : VinylControlManager) (l : VinylSignalQualityListener)
    (inv : ArmedIffListening s) : ArmedIffListening (s.removeSignalQualityListener l) := by
  unfold ArmedIffListening
  rw [remove_listeners]
  by_cases h : s.m_listeners.remove l = []
  · obtain ⟨ht, hr⟩ := remove_last_disarms s l h
    simp [ht, hr, h]
  · obtain ⟨ht, hr⟩ := remove_other_keeps s l h
    have hne : s.m_listeners ≠ [] := by
      intro he
      apply h
      simp [QSet.remove, he]
    rw [ht, hr]
    constructor
    · exact ⟨fun _ => h, fun _ => inv.1.mpr hne⟩
    · exact ⟨fun _ => h, fun _ => inv.2.mpr hne⟩

theorem armed_run (calls : List ListenerCall) :
    ∀ s : VinylControlManager, ArmedIffListening s →
      ArmedIffListening (runListenerCalls s calls) := by
  induction calls with
  | nil => intro s h; exact h
  | cons c rest ih =>
    intro s h
    have hstep : ArmedIffListening (applyListenerCall s c) := by
      cases c with
      | add l => exact armed_add s l
      | remove l => exact armed_remove s l h
    exact ih _ hstep

/-- C12: after any sequence of `addSignalQualityListener` and
`removeSignalQualityListener` calls on the constructed manager, the timer id
differs from -1 exactly when the listener set is non-empty, and
signal-quality reporting is switched on at the producer exactly when the
listener set is non-empty; in any state, adding a listener arms both, removing
the last listener disarms both, and adding a listener that is already
registered leaves the listener set unchanged. -/
theorem C12_armed_iff_listening (pConfig controls : KeyValueStore)
    (calls : List ListenerCall) :
    ((runListenerCalls (constructed pConfig controls) calls).m_iTimerId ≠ -1 ↔
      (runListenerCalls (constructed pConfig controls) calls).m_listeners ≠ []) ∧
    ((runListenerCalls (constructed pConfig controls) calls).m_pProcessor.m_bReportSignalQuality
        = true ↔
      (runListenerCalls (constructed pConfig controls) calls).m_listeners ≠ []) ∧
    (∀ (s : VinylControlManager) (l : VinylSignalQualityListener),
      (s.addSignalQualityListener l).m_iTimerId ≠ -1 ∧
      (s.addSignalQualityListener l).m_pProcessor.m_bReportSignalQuality = true ∧
      l ∈ (s.addSignalQualityListener l).m_listeners) ∧
    (∀ (s : VinylControlManager) (l : VinylSignalQualityListener),
      (s.removeSignalQualityListener l).m_listeners = [] →
      (s.removeSignalQualityListener l).m_iTimerId = -1 ∧
      (s.removeSignalQualityListener l).m_pProcessor.m_bReportSignalQuality = false) ∧
    (∀ (s : VinylControlManager) (l : VinylSignalQualityListener),
      l ∈ s.m_listeners → (s.addSignalQualityListener l).m_listeners = s.m_listeners) := by
  have hinit : ArmedIffListening (constructed pConfig controls) := by
    simp [ArmedIffListening, constructed]
  have hrun := armed_run calls _ hinit
  refine ⟨hrun.1, hrun.2, ?_, ?_, ?_⟩
  · intro s l
    obtain ⟨ht, hr, hl⟩ := add_arms s l
    refine ⟨ht, hr, ?_⟩
    rw [hl]
    unfold QSet.insert
    by_cases h : l ∈ s.m_listeners
    · rw [if_pos h]; exact h
    · rw [if_neg h]; simp
  · intro s l h
    rw [remove_listeners] at h
    exact remove_last_disarms s l h
  · intro s l h
    rw [(add_arms s l).2.2]
    simp [QSet.insert, h]

/-- Witness of C12: on the constructed manager, adding listener 1 arms the
drain, adding it again leaves the set as it was, adding listener 2 and removing
listener 1 keeps the drain armed, and removing listener 2, the last one,
disarms it. -/
theorem C12_armed_iff_listening_witness :
    (runListenerCalls manager0 [.add 1]).m_iTimerId = 1 ∧
    (runListenerCalls manager0 [.add 1]).m_pProcessor.m_bReportSignalQuality = true ∧
    (runListenerCalls manager0 [.add 1, .add 1]).m_listeners = [1] ∧
    (runListenerCalls manager0 [.add 1, .add 1, .add 2, .remove 1]).m_listeners = [2] ∧
    ((runListenerCalls manager0 [.add 1, .add 1, .add 2, .remove 1]).m_iTimerId ≠ -1 ↔
      (runListenerCalls manager0 [.add 1, .add 1, .add 2, .remove 1]).m_listeners ≠ []) ∧
    (runListenerCalls manager0 [.add 1, .add 1, .add 2, .remove 1, .remove 2]).m_listeners
      = [] ∧
    ((runListenerCalls manager0 [.add 1, .add 1, .add 2, .remove 1]).removeSignalQualityListener
        2).m_iTimerId = -1 :=
  ⟨by decide, by decide, by decide, by decide,
    (C12_armed_iff_listening [] [] [.add 1, .add 1, .add 2, .remove 1]).1,
    by decide,
    ((C12_armed_iff_listening [] [] []).2.2.2.1
      (runListenerCalls manager0 [.add 1, .add 1, .add 2, .remove 1]) 2 (by decide)).1⟩

/-! ## C13: the order of the teardown -/

end VinylControlManager

namespace EffectChainSlot

/-! ## C14: a preset with more entries than the chain has slots -/

/-- A preset with more entries than there are slots from the start index on
runs the loop of `loadChainPreset` into the out-of-range access. -/
theorem loadEffectPresets_overrun (presets : List EffectPreset) :
    ∀ (i : Nat) (slots : List EffectSlot), i ≤ slots.length →
      slots.length < i + presets.length →
      loadEffectPresets presets i slots = .error Fault.indexOutOfRange := by
  induction presets with
  | nil =>
    intro i slots h0 h
    simp only [List.length_nil, Nat.add_zero] at h
    omega
  | cons p rest ih =>
    intro i slots h0 h
    simp only [List.length_cons] at h
    by_cases hi : i < slots.length
    · rw [loadEffectPresets_step p rest i slots slots[i] (List.getElem?_eq_getElem hi)]
      exact ih (i + 1) _ (by rw [List.length_set]; omega) (by rw [List.length_set]; omega)
    · have hnone : slots[i]? = none := List.getElem?_eq_none (by omega)
      simp [loadEffectPresets, hnone]

/-- For every chain and every non-null preset with more per-slot entries than
the chain has effect slots, `loadChainPreset` reaches the out-of-range access
of the slot table. -/
theorem loadChainPreset_overrun (s : EffectChainSlot) (P : EffectChainPreset)
    (h : s.m_effectSlots.length < P.effectPresets.length) :
    s.loadChainPreset (some P) = .error Fault.indexOutOfRange := by
  have hrun := loadEffectPresets_overrun P.effectPresets 0 (s.slotControlClear 1).m_effectSlots
    (Nat.zero_le _) (by simpa [slotControlClear] using h)
  simp only [loadChainPreset, hrun]

/-- C14, evaluated on the chain with four effect slots and a preset with five
entries: `loadChainPreset` accesses the slot table at index 4, which is not
below 4, so the out-of-range branch is reached. -/
theorem C14_longer_preset_overruns_slot_table :
    chain4.m_effectSlots.length = 4 ∧
    preset5.effectPresets.length = 5 ∧
    chain4.loadChainPreset (some preset5) = .error Fault.indexOutOfRange :=
  ⟨by decide, by decide, loadChainPreset_overrun chain4 preset5 (by decide)⟩

/-! ## C15: the messages of a channel alternate -/

theorem alternates_snoc (l : List Bool) :
    ∀ (first b : Bool), alternates first l = true →
      ((l.getLast? = none ∧ b = first) ∨ (∃ x, l.getLast? = some x ∧ b = !x)) →
      alternates first (l ++ [b]) = true := by
  induction l with
  | nil =>
    intro first b _ h
    rcases h with ⟨_, hb⟩ | ⟨x, hx, _⟩
    · simp [alternates, hb]
    · simp at hx
  | cons a t ih =>
    intro first b halt h
    simp only [alternates, Bool.and_eq_true, beq_iff_eq] at halt
    obtain ⟨haf, ht⟩ := halt
    simp only [List.cons_append, alternates, Bool.and_eq_true, beq_iff_eq]
    refine ⟨haf, ih (!first) b ht ?_⟩
    rcases h with ⟨hnone, _⟩ | ⟨x, hx, hb⟩
    · simp at hnone
    · cases t with
      | nil =>
        left
        simp only [List.getLast?_singleton, Option.some.injEq] at hx
        exact ⟨rfl, by rw [hb, ← hx, haf]⟩
      | cons c t2 =>
        right
        exact ⟨x, by simpa [List.getLast?_cons_cons] using hx, hb⟩

theorem channelMessages_append (h : Nat) (sent : List EffectsRequest) (r : EffectsRequest) :
    channelMessages h (sent ++ [r])
      = channelMessages h sent ++ (channelMessage h r).toList := by
  unfold channelMessages
  rw [List.filterMap_append]
  cases hr : channelMessage h r <;> simp [List.filterMap_cons, hr]

theorem invariant_enable (c c2 : ChannelHandleAndGroup) (s : EffectChainSlot)
    (hf : c2.handle = c.handle → c2 = c) (inv : ChannelInvariant c s) :
    ChannelInvariant c (s.enableForInputChannel c2) := by
  unfold enableForInputChannel
  by_cases hmem : c2 ∈ s.m_enabledInputChannels
  · rw [if_pos hmem]; exact inv
  · rw [if_neg hmem]
    obtain ⟨halt, hiff⟩ := inv
    unfold ChannelInvariant
    simp only [writeRequest, channelMessages_append, channelMessage]
    by_cases hh : c2.handle = c.handle
    · have hc : c2 = c := hf hh
      subst hc
      have hlast : (channelMessages c2.handle s.m_pMessenger).getLast? ≠ some true :=
        fun e => hmem (hiff.mpr e)
      simp only [if_true, Option.toList_some]
      refine ⟨?_, ?_⟩
      · apply alternates_snoc _ _ _ halt
        cases hl : (channelMessages c2.handle s.m_pMessenger).getLast? with
        | none => exact Or.inl ⟨rfl, rfl⟩
        | some x =>
          cases x with
          | true => exact absurd hl hlast
          | false => exact Or.inr ⟨false, rfl, rfl⟩
      · simp
    · have hne : c ≠ c2 := fun e => hh (by rw [e])
      simp only [hh, if_false, Option.toList_none, List.append_nil]
      refine ⟨halt, ?_⟩
      rw [Finset.mem_insert]
      constructor
      · intro h
        rcases h with h | h
        · exact absurd h hne
        · exact hiff.mp h
      · intro h
        exact Or.inr (hiff.mpr h)

theorem invariant_disable (c c2 : ChannelHandleAndGroup) (s : EffectChainSlot)
    (hf : c2.handle = c.handle → c2 = c) (inv : ChannelInvariant c s) :
    ChannelInvariant c (s.disableForInputChannel c2) := by
  unfold disableForInputChannel
  obtain ⟨halt, hiff⟩ := inv
  by_cases hmem : c2 ∈ s.m_enabledInputChannels
  · simp only [hmem, decide_True, Bool.not_true, Bool.false_eq_true, if_false]
    unfold ChannelInvariant
    simp only [writeRequest, channelMessages_append, channelMessage]
    by_cases hh : c2.handle = c.handle
    · have hc : c2 = c := hf hh
      subst hc
      have hlast : (channelMessages c2.handle s.m_pMessenger).getLast? = some true :=
        hiff.mp hmem
      simp only [if_true, Option.toList_some]
      refine ⟨?_, ?_⟩
      · exact alternates_snoc _ _ _ halt (Or.inr ⟨true, hlast, rfl⟩)
      · simp
    · have hne : c ≠ c2 := fun e => hh (by rw [e])
      simp only [hh, if_false, Option.toList_none, List.append_nil]
      refine ⟨halt, ?_⟩
      rw [Finset.mem_erase]
      constructor
      · intro h; exact hiff.mp h.2
      · intro h; exact ⟨hne, hiff.mpr h⟩
  · simp only [hmem, decide_False, Bool.not_false, if_true]
    unfold ChannelInvariant
    simp only [Finset.erase_eq_of_not_mem hmem]
    exact ⟨halt, hiff⟩

theorem invariant_register (c c2 : ChannelHandleAndGroup) (v : Double) (s : EffectChainSlot)
    (hf : c2.handle = c.handle → c2 = c) (inv : ChannelInvariant c s) :
    ChannelInvariant c (s.registerInputChannel c2 v) := by
  unfold registerInputChannel
  split
  · exact inv
  · simp only []
    split
    · exact invariant_enable c c2 _ hf inv
    · exact inv

theorem invariant_applyCall (c : ChannelHandleAndGroup) (s : EffectChainSlot) (call : Call)
    (hf : call.handleGroup.handle = c.handle → call.handleGroup = c)
    (inv : ChannelInvariant c s) : ChannelInvariant c (s.applyCall call) := by
  cases call with
  | registerInputChannel c2 v => exact invariant_register c c2 v s hf inv
  | enableForInputChannel c2 => exact invariant_enable c c2 s hf inv
  | disableForInputChannel c2 => exact invariant_disable c c2 s hf inv
  | slotChannelStatusChanged v c2 =>
    simp only [applyCall, slotChannelStatusChanged]
    split
    · exact invariant_enable c c2 s hf inv
    · exact invariant_disable c c2 s hf inv

theorem invariant_runCalls (c : ChannelHandleAndGroup) (calls : List Call) :
    ∀ s : EffectChainSlot,
      (∀ call ∈ calls, call.handleGroup.handle = c.handle → call.handleGroup = c) →
      ChannelInvariant c s → ChannelInvariant c (s.runCalls calls) := by
  induction calls with
  | nil => intro s _ inv; exact inv
  | cons call rest ih =>
    intro s hf inv
    have h1 := invariant_applyCall c s call (hf call (List.mem_cons_self _ _)) inv
    exact ih _ (fun k hk => hf k (List.mem_cons_of_mem _ hk)) h1

/-- C15: for every sequence of `registerInputChannel`,
`enableForInputChannel`, `disableForInputChannel` and
`slotChannelStatusChanged` calls on a freshly constructed chain slot, and every
channel `c` whose handle is used by no other channel of the sequence: the
enable and disable messages sent for the handle of `c` strictly alternate,
starting with an enable, and `c` is in the EnabledChannelSet exactly when the
last of them is an enable message. -/
theorem C15_channel_messages_alternate (group : String)
    (pChainPresetManager : EffectChainPresetManager) (DrySlashWet : EffectChainMixMode)
    (calls : List Call) (c : ChannelHandleAndGroup)
    (hhandles : ∀ call ∈ calls, call.handleGroup.handle = c.handle → call.handleGroup = c) :
    alternates true
        (channelMessages c.handle
          ((constructed group pChainPresetManager DrySlashWet).runCalls calls).m_pMessenger)
      = true ∧
    (c ∈ ((constructed group pChainPresetManager DrySlashWet).runCalls calls).m_enabledInputChannels
      ↔ (channelMessages c.handle
          ((constructed group pChainPresetManager DrySlashWet).runCalls calls).m_pMessenger).getLast?
        = some true) := by
  have hinit : ChannelInvariant c (constructed group pChainPresetManager DrySlashWet) := by
    simp [ChannelInvariant, constructed, addToEngine, sendParameterUpdate, writeRequest,
      channelMessages, channelMessage, alternates]
  exact invariant_runCalls c calls _ hhandles hinit

/-- Witness of C15: on the constructed chain the run `exampleCalls` sends for
`ch0` an enable, a disable and an enable, and for `ch1` an enable and a
disable; `ch0` ends enabled and `ch1` disabled. -/
theorem C15_channel_messages_alternate_witness :
    channelMessages ch0.handle (chain0.runCalls exampleCalls).m_pMessenger
      = [true, false, true] ∧
    channelMessages ch1.handle (chain0.runCalls exampleCalls).m_pMessenger = [true, false] ∧
    ch0 ∈ (chain0.runCalls exampleCalls).m_enabledInputChannels ∧
    ch1 ∉ (chain0.runCalls exampleCalls).m_enabledInputChannels ∧
    alternates true (channelMessages ch0.handle (chain0.runCalls exampleCalls).m_pMessenger)
      = true ∧
    (ch1 ∈ (chain0.runCalls exampleCalls).m_enabledInputChannels ↔
      (channelMessages ch1.handle (chain0.runCalls exampleCalls).m_pMessenger).getLast?
        = some true) :=
  ⟨by decide, by decide, by decide, by decide,
    (C15_channel_messages_alternate "[EffectRack1_EffectUnit1]" presetStore 0 exampleCalls ch0
      (by decide)).1,
    (C15_channel_messages_alternate "[EffectRack1_EffectUnit1]" presetStore 0 exampleCalls ch1
      (by decide)).2⟩

end EffectChainSlot

end Mixxx
